import Mathlib

/-!
# oapiproxy: the request-handling path of `main.go`

A shallow embedding of `ProxyHandler.ServeHTTP`, `NewProxyHandler`, `loadMap`
and `main`.  Go maps are association lists read through a first-match lookup
(the list order stands for the unspecified iteration order of `range`); a
well-formed Go map has pairwise distinct keys.  The standard-library pieces
the handler calls (`http.Header`, `http.ResponseWriter`, `http.NewRequest`,
`http.DefaultClient.Do`, `os.Open`, `json.Decoder.Decode`) are modelled after
their documented behaviour; the ones that depend on the outside world are
fields of `World` and `Host`.  Calls to `log` write to the process log only
and are left out.
-/

namespace OapiProxy

/-! ## Data model -/

/-- Client represents a client instance (`type Client struct`). -/
structure Client where
  BasePath : String
  RealKey : String
deriving DecidableEq, Repr

/-- Go map from string keys: association list, first match wins. -/
abbrev GoMap (V : Type) := List (String × V)

/-- Map read `m[k]` with the comma-ok result: `none` when `k` is not a key. -/
def GoMap.get {V : Type} : GoMap V → String → Option V
  | [], _ => none
  | (k', v) :: rest, k => if k' = k then some v else GoMap.get rest k

/-- Map write `m[k] = v`: the entry for `k` is replaced, no other entry changes. -/
def GoMap.put {V : Type} (m : GoMap V) (k : String) (v : V) : GoMap V :=
  (k, v) :: m.filter (fun e => decide (e.1 ≠ k))

/-- Keys of a map. -/
def GoMap.keys {V : Type} (m : GoMap V) : List String := m.map Prod.fst

/-- ProxyHandler provides handler for proxy endpoint (`keys map[string]Client`). -/
structure ProxyHandler where
  keys : GoMap Client
deriving DecidableEq, Repr

/-! ## `net/textproto` and `net/http` header operations -/

/-- Go `validHeaderFieldByte`: the RFC 7230 token bytes, that is the digits,
the letters and fifteen punctuation bytes, given here by their codes. -/
def validHeaderFieldByte (c : Char) : Bool :=
  let n := c.toNat
  (48 ≤ n && n ≤ 57) || (97 ≤ n && n ≤ 122) || (65 ≤ n && n ≤ 90) ||
  n == 33 || n == 35 || n == 36 || n == 37 || n == 38 || n == 39 || n == 42 ||
  n == 43 || n == 45 || n == 46 || n == 94 || n == 95 || n == 96 || n == 124 ||
  n == 126

/-- Recasing loop of Go `canonicalMIMEHeaderKey`: upper case for the first
letter and for a letter after a hyphen, lower case elsewhere. -/
def canonicalLoop : Bool → List Char → List Char
  | _, [] => []
  | upper, c :: cs =>
    let n := c.toNat
    let c1 :=
      if upper && (97 ≤ n && n ≤ 122) then Char.ofNat (n - 32)
      else if !upper && (65 ≤ n && n ≤ 90) then Char.ofNat (n + 32)
      else c
    c1 :: canonicalLoop (c1 == Char.ofNat 45) cs

/-- Go `textproto.CanonicalMIMEHeaderKey`: a key holding a byte that is not a
header field byte is returned unchanged, any other key is recased. -/
def CanonicalMIMEHeaderKey (s : String) : String :=
  if s.data.all validHeaderFieldByte then String.mk (canonicalLoop true s.data) else s

/-- Go `http.Header`, a `map[string][]string`. -/
abbrev Header := GoMap (List String)

/-- Go `Header.Get`: the first value under the canonical form of `key`, or the
empty string when there is none. -/
def Header.Get (h : Header) (key : String) : String :=
  match GoMap.get h (CanonicalMIMEHeaderKey key) with
  | some (v :: _) => v
  | _ => ""

/-- Go `Header.Set`: `h[canonical(key)] = []string{value}`. -/
def Header.Set (h : Header) (key value : String) : Header :=
  GoMap.put h (CanonicalMIMEHeaderKey key) [value]

/-- Go `Header.Add`: `h[canonical(key)] = append(h[canonical(key)], value)`. -/
def Header.Add (h : Header) (key value : String) : Header :=
  GoMap.put h (CanonicalMIMEHeaderKey key)
    ((GoMap.get h (CanonicalMIMEHeaderKey key)).getD [] ++ [value])

/-! ## Requests, responses and the response writer -/

/-- Fields of `url.URL` the handler reads. -/
structure URL where
  Path : String
  RawQuery : String
deriving DecidableEq, Repr

/-- Fields of the inbound `http.Request` the handler reads.  `Body` is the
content of the body stream. -/
structure Request where
  Method : String
  URL : URL
  Header : Header
  Body : String
  RemoteAddr : String
deriving DecidableEq, Repr

/-- Outbound `http.Request` as built by `http.NewRequest`: `URL` is the string
the constructor was given. -/
structure ProxyRequest where
  Method : String
  URL : String
  Header : Header
  Body : String
deriving DecidableEq, Repr

/-- Fields of the backend `http.Response`. -/
structure Response where
  StatusCode : Nat
  Header : Header
  Body : String
deriving DecidableEq, Repr

/-- The outside world of one request: whether `http.NewRequest` accepts a
method and URL string, and what `http.DefaultClient.Do` returns (`none` for a
non-nil error). -/
structure World where
  validRequest : String → String → Bool
  upstream : ProxyRequest → Option Response

/-- Go `http.NewRequest(method, url, body)`: `none` for a non-nil error; an
empty method means `GET`; the new request has an empty header map. -/
def NewRequest (env : World) (method url body : String) : Option ProxyRequest :=
  if env.validRequest method url then
    some { Method := if method = "" then "GET" else method, URL := url, Header := [], Body := body }
  else none

/-- What an `http.ResponseWriter` has recorded: the live header map `Header()`,
the status once written (`none` before), the header map as it stood when the
status was written, and the body bytes written. -/
structure ResponseWriter where
  header : Header
  status : Option Nat
  sent : Header
  body : String
deriving DecidableEq, Repr

/-- Response writer of a new request: nothing set, nothing written. -/
def ResponseWriter.fresh : ResponseWriter :=
  { header := [], status := none, sent := [], body := "" }

/-- Go `ResponseWriter.WriteHeader`: the first call fixes the status and the
headers sent; a later call changes nothing. -/
def ResponseWriter.WriteHeader (w : ResponseWriter) (code : Nat) : ResponseWriter :=
  match w.status with
  | some _ => w
  | none => { w with status := some code, sent := w.header }

/-- Go `ResponseWriter.Write`: writes status 200 first when no status has been
written, then appends the bytes. -/
def ResponseWriter.Write (w : ResponseWriter) (s : String) : ResponseWriter :=
  let w1 := w.WriteHeader 200
  { w1 with body := w1.body ++ s }

/-- End of the handler: the server writes status 200 when the handler has
written none. -/
def ResponseWriter.finish (w : ResponseWriter) : ResponseWriter :=
  w.WriteHeader 200

/-- Go `io.Copy(w, body)`: the bytes of `body` are written to `w`; an empty
body reaches end of stream without a call of `Write`. -/
def ioCopy (w : ResponseWriter) (body : String) : ResponseWriter :=
  if body = "" then w else w.Write body

/-- Calls the handler makes on its collaborators, in order: `http.NewRequest`
with its arguments, `http.DefaultClient.Do` with the request handed over and
what came back (`none` for an error), and `Close` on a backend response body. -/
inductive Call where
  | newRequest (method url body : String)
  | clientDo (request : ProxyRequest) (result : Option Response)
  | bodyClose
deriving DecidableEq, Repr

/-- Whether a call is an upstream dispatch. -/
def Call.isClientDo : Call → Bool
  | Call.clientDo _ _ => true
  | _ => false

/-- State left behind by one run of the handler: the response writer after the
server finished the response, the inbound request's header map `r.Header` as it
stands on return, the collaborator calls made, and whether the handler
panicked (index out of range). -/
structure Outcome where
  w : ResponseWriter
  inbound : Header
  calls : List Call
  panicked : Bool
deriving DecidableEq, Repr

/-! ## `ServeHTTP` -/

/-- Inner loop of the relay (main.go 56-60): every value of `hv` with index
greater than zero is added under `hk`. -/
def relayValues (h : Header) (hk : String) (hv : List String) : Header :=
  hv.enum.foldl (fun acc p => if p.1 > 0 then Header.Add acc hk p.2 else acc) h

/-- Relay loop (main.go 54-61) over the entries of `response.Header`, on the
header map of the response writer.  The second component is `true` when
`hv[0]` was read from an empty slice, which panics; the first is the map at
that point. -/
def relayHeaders : Header → Header → Header × Bool
  | h, [] => (h, false)
  | h, (hk, hv) :: rest =>
    match hv with
    | [] => (h, true)
    | v0 :: _ => relayHeaders (relayValues (Header.Set h hk v0) hk hv) rest

/-- Target path (main.go 31-36). -/
def targetPath (r : Request) : String :=
  if r.URL.RawQuery = "" then r.URL.Path else r.URL.Path ++ "?" ++ r.URL.RawQuery

/-- The handler `(ph *ProxyHandler) ServeHTTP(w, r)` (main.go 23-70). -/
def ServeHTTP (env : World) (ph : ProxyHandler) (w : ResponseWriter) (r : Request) : Outcome :=
  let appKey := r.Header.Get "X-APP_KEY"
  if appKey = "" then
    let w1 := (w.WriteHeader 400).Write "X-APP_KEY header not provided"
    { w := w1.finish, inbound := r.Header, calls := [], panicked := false }
  else
    match GoMap.get ph.keys appKey with
    | some appInfo =>
      let url := appInfo.BasePath ++ "/" ++ targetPath r
      match NewRequest env r.Method url r.Body with
      | none =>
        let w1 := (w.WriteHeader 500).Write "cannot create proxy request"
        { w := w1.finish, inbound := r.Header,
          calls := [Call.newRequest r.Method url r.Body], panicked := false }
      | some request0 =>
        -- `request.Header = r.Header` makes both names denote one map; the
        -- `Set` that follows writes to that map.
        let shared := Header.Set r.Header "X-APP_KEY" appInfo.RealKey
        let request := { request0 with Header := shared }
        match env.upstream request with
        | none =>
          let w1 := (w.WriteHeader 500).Write "cannot retrieve proxy response"
          { w := w1.finish, inbound := shared,
            calls := [Call.newRequest r.Method url r.Body, Call.clientDo request none],
            panicked := false }
        | some response =>
          match relayHeaders w.header response.Header with
          | (h, true) =>
            { w := { w with header := h }, inbound := shared,
              calls := [Call.newRequest r.Method url r.Body,
                Call.clientDo request (some response)],
              panicked := true }
          | (h, false) =>
            let w1 := ioCopy { w with header := h } response.Body
            { w := w1.finish, inbound := shared,
              calls := [Call.newRequest r.Method url r.Body,
                Call.clientDo request (some response)],
              panicked := false }
    | none =>
      let w1 := (w.WriteHeader 400).Write ("No application found for app key " ++ appKey)
      { w := w1.finish, inbound := r.Header, calls := [], panicked := false }

/-- NewProxyHandler constructs a new proxy handler; its error is always nil. -/
def NewProxyHandler (config : GoMap Client) : ProxyHandler × Option String :=
  ({ keys := config }, none)

/-! ## `loadMap` and `main` -/

/-- The host of the process: `os.Open` (the content of the file, or the error)
and `json.Decoder.Decode` into a map (the map afterwards and the error, if
any). -/
structure Host where
  openFile : String → Except String String
  decode : String → GoMap Client → GoMap Client × Option String

/-- Go `loadMap(file, dest)` (main.go 77-87): the error returned and `*dest`
afterwards.  The result of `Decode` is not bound to anything. -/
def loadMap (host : Host) (file : String) (dest : GoMap Client) : Option String × GoMap Client :=
  match host.openFile file with
  | Except.error err => (some err, dest)
  | Except.ok content => (none, (host.decode content dest).1)

/-- How `main` ends up: stopped by `log.Fatal` before serving, or inside
`http.ListenAndServe` with an address and a handler. -/
inductive MainResult where
  | fatal (message : String)
  | serving (addr : String) (handler : ProxyHandler)
deriving DecidableEq, Repr

/-- Go `main` (main.go 89-107) up to the call of `http.ListenAndServe`; `args`
is `os.Args`. -/
def main (host : Host) (args : List String) : MainResult :=
  let portToRun := if args.length > 1 then args.getD 1 "" else "9080"
  match loadMap host "keys.json" [] with
  | (some err, _) => MainResult.fatal ("Cannot load config file:" ++ err)
  | (none, config) =>
    match NewProxyHandler config with
    | (_, some err) => MainResult.fatal ("Cannot create proxy handler:" ++ err)
    | (proxyHandler, none) => MainResult.serving (":" ++ portToRun) proxyHandler

/-! ## Derived notions and example inputs -/

/-- Well-formed backend header map: pairwise distinct keys (a Go map), every
key in canonical form (`http.Response.Header` documents its keys as
canonicalized), and at least one value under every key. -/
def Header.WellFormed (h : Header) : Prop :=
  (GoMap.keys h).Nodup ∧ (∀ e ∈ h, CanonicalMIMEHeaderKey e.1 = e.1) ∧ (∀ e ∈ h, e.2 ≠ [])

instance (h : Header) : Decidable (Header.WellFormed h) := by
  unfold Header.WellFormed; infer_instance

/-- The request handed to the upstream client when construction succeeds. -/
def outbound (r : Request) (appInfo : Client) : ProxyRequest :=
  { Method := if r.Method = "" then "GET" else r.Method,
    URL := appInfo.BasePath ++ "/" ++ targetPath r,
    Header := Header.Set r.Header "X-APP_KEY" appInfo.RealKey,
    Body := r.Body }

/-- Example key table: one ordinary entry and one entry for the empty string. -/
def exampleKeys : GoMap Client :=
  [("k1", { BasePath := "http://backend:8081", RealKey := "secret" }),
   ("", { BasePath := "http://backend:8082", RealKey := "other" })]

/-- Handler over the example key table. -/
def exampleHandler : ProxyHandler := { keys := exampleKeys }

/-- Example inbound request: the caller sent two `X-APP_KEY` values. -/
def exampleRequest : Request :=
  { Method := "POST", URL := { Path := "/v1/items", RawQuery := "id=5&x=y" },
    Header := [("X-App_key", ["k1", "k2"]), ("Accept", ["text/html", "*/*"])],
    Body := "payload", RemoteAddr := "10.0.0.7:40000" }

/-- Backend answer with a repeated header and a status other than 200. -/
def exampleResponse : Response :=
  { StatusCode := 404,
    Header := [("Set-Cookie", ["a=1", "b=2"]), ("Content-Type", ["text/plain"])],
    Body := "no such item" }

/-- World in which construction succeeds and the backend answers. -/
def worldUp : World :=
  { validRequest := fun _ _ => true, upstream := fun _ => some exampleResponse }

/-- World in which construction succeeds and the backend is unreachable. -/
def worldDown : World :=
  { validRequest := fun _ _ => true, upstream := fun _ => none }

/-- World in which `http.NewRequest` rejects every request. -/
def worldNoBuild : World :=
  { validRequest := fun _ _ => false, upstream := fun _ => some exampleResponse }

/-- Host whose `keys.json` opens but does not hold JSON: `Decode` reports an
error and leaves the map as it was. -/
def hostUndecodable : Host :=
  { openFile := fun file =>
      if file = "keys.json" then Except.ok "base_path=http://backend:8081"
      else Except.error "open: no such file or directory",
    decode := fun _ dest => (dest, some "invalid character looking for beginning of value") }

/-! ## Lemmas on maps and headers -/

theorem GoMap.get_filter_ne {V : Type} (m : GoMap V) (k k' : String) (h : k' ≠ k) :
    GoMap.get (m.filter (fun e => decide (e.1 ≠ k))) k' = GoMap.get m k' := by
  induction m with
  | nil => rfl
  | cons e rest ih =>
    obtain ⟨a, v⟩ := e
    by_cases ha : a = k
    · have hak : ¬ a = k' := fun hh => h (hh.symm.trans ha)
      rw [List.filter_cons_of_neg (by simp [ha])]
      simp only [GoMap.get, hak, if_false]
      exact ih
    · rw [List.filter_cons_of_pos (by simp [ha])]
      by_cases hak : a = k'
      · simp [GoMap.get, hak]
      · simp only [GoMap.get, hak, if_false]
        exact ih

theorem GoMap.get_put_same {V : Type} (m : GoMap V) (k : String) (v : V) :
    GoMap.get (GoMap.put m k v) k = some v := by
  simp [GoMap.put, GoMap.get]

theorem GoMap.get_put_ne {V : Type} (m : GoMap V) (k k' : String) (v : V) (h : k' ≠ k) :
    GoMap.get (GoMap.put m k v) k' = GoMap.get m k' := by
  have hk : ¬ k = k' := fun hh => h hh.symm
  simp only [GoMap.put, GoMap.get, hk, if_false]
  exact GoMap.get_filter_ne m k k' h

theorem GoMap.get_eq_none_of_not_mem {V : Type} (m : GoMap V) (k : String)
    (h : k ∉ GoMap.keys m) : GoMap.get m k = none := by
  induction m with
  | nil => rfl
  | cons e rest ih =>
    obtain ⟨a, v⟩ := e
    simp only [GoMap.keys, List.map_cons, List.mem_cons, not_or] at h
    have hak : ¬ a = k := fun hh => h.1 hh.symm
    simp only [GoMap.get, hak, if_false]
    exact ih h.2

theorem GoMap.get_of_mem {V : Type} (m : GoMap V) (k : String) (v : V)
    (hnd : (GoMap.keys m).Nodup) (h : (k, v) ∈ m) : GoMap.get m k = some v := by
  induction m with
  | nil => simp at h
  | cons e rest ih =>
    obtain ⟨a, u⟩ := e
    simp only [GoMap.keys, List.map_cons, List.nodup_cons] at hnd
    rcases List.mem_cons.1 h with heq | hmem
    · cases heq
      simp [GoMap.get]
    · have hak : ¬ a = k := by
        intro hh
        subst hh
        exact hnd.1 (List.mem_map_of_mem Prod.fst hmem)
      simp only [GoMap.get, hak, if_false]
      exact ih hnd.2 hmem

theorem canonical_app_key : CanonicalMIMEHeaderKey "X-APP_KEY" = "X-App_key" := by
  decide

theorem Header.get_Set_same (h : Header) (key value : String) :
    GoMap.get (Header.Set h key value) (CanonicalMIMEHeaderKey key) = some [value] :=
  GoMap.get_put_same _ _ _

theorem Header.get_Set_ne (h : Header) (key value name : String)
    (hn : name ≠ CanonicalMIMEHeaderKey key) :
    GoMap.get (Header.Set h key value) name = GoMap.get h name :=
  GoMap.get_put_ne _ _ _ _ hn

theorem Header.Get_Set (h : Header) (key value : String) :
    Header.Get (Header.Set h key value) key = value := by
  simp [Header.Get, Header.get_Set_same]

/-! ## The relay loop -/

theorem relayValues_step (hk : String) (tl : List String) :
    ∀ (n : Nat) (h : Header),
      (tl.enumFrom (n + 1)).foldl
          (fun acc p => if p.1 > 0 then Header.Add acc hk p.2 else acc) h
        = tl.foldl (fun acc v => Header.Add acc hk v) h := by
  induction tl with
  | nil => intro n h; rfl
  | cons v rest ih =>
    intro n h
    simp only [List.enumFrom_cons, List.foldl_cons]
    rw [if_pos (Nat.succ_pos n)]
    exact ih (n + 1) _

theorem relayValues_cons (h : Header) (hk v0 : String) (tl : List String) :
    relayValues h hk (v0 :: tl) = tl.foldl (fun acc v => Header.Add acc hk v) h := by
  unfold relayValues
  simp only [List.enum, List.enumFrom_cons, List.foldl_cons]
  rw [if_neg (Nat.lt_irrefl 0)]
  exact relayValues_step hk tl 0 h

theorem get_foldl_Add_same (hk : String) (tl : List String) :
    ∀ (h : Header) (vs : List String),
      GoMap.get h (CanonicalMIMEHeaderKey hk) = some vs →
      GoMap.get (tl.foldl (fun acc v => Header.Add acc hk v) h) (CanonicalMIMEHeaderKey hk)
        = some (vs ++ tl) := by
  induction tl with
  | nil => intro h vs hv; simpa using hv
  | cons v rest ih =>
    intro h vs hv
    simp only [List.foldl_cons]
    have h1 : GoMap.get (Header.Add h hk v) (CanonicalMIMEHeaderKey hk) = some (vs ++ [v]) := by
      simp [Header.Add, GoMap.get_put_same, hv]
    rw [ih _ _ h1]
    simp

theorem get_foldl_Add_ne (hk name : String) (hn : name ≠ CanonicalMIMEHeaderKey hk)
    (tl : List String) :
    ∀ (h : Header),
      GoMap.get (tl.foldl (fun acc v => Header.Add acc hk v) h) name = GoMap.get h name := by
  induction tl with
  | nil => intro h; rfl
  | cons v rest ih =>
    intro h
    simp only [List.foldl_cons]
    rw [ih]
    exact GoMap.get_put_ne _ _ _ _ hn

/-- One header of the backend response relayed: its canonical name then holds
its values in order, no other name changes. -/
theorem get_relay_one (h : Header) (hk v0 : String) (tl : List String) (name : String) :
    GoMap.get (relayValues (Header.Set h hk v0) hk (v0 :: tl)) name
      = if name = CanonicalMIMEHeaderKey hk then some (v0 :: tl) else GoMap.get h name := by
  rw [relayValues_cons]
  by_cases hn : name = CanonicalMIMEHeaderKey hk
  · rw [if_pos hn, hn, get_foldl_Add_same hk tl _ [v0] (Header.get_Set_same h hk v0)]
    rfl
  · rw [if_neg hn, get_foldl_Add_ne hk name hn, Header.get_Set_ne h hk v0 name hn]

theorem relayHeaders_spec (rh : Header) :
    ∀ (h : Header), Header.WellFormed rh →
      (relayHeaders h rh).2 = false ∧
      ∀ name, GoMap.get (relayHeaders h rh).1 name
        = if name ∈ GoMap.keys rh then GoMap.get rh name else GoMap.get h name := by
  induction rh with
  | nil => intro h _; simp [relayHeaders, GoMap.keys]
  | cons e rest ih =>
    intro h hwf
    obtain ⟨hk, hv⟩ := e
    obtain ⟨hnd, hcanon, hne⟩ := hwf
    simp only [GoMap.keys, List.map_cons, List.nodup_cons] at hnd
    have hck : CanonicalMIMEHeaderKey hk = hk := hcanon (hk, hv) (List.mem_cons_self _ _)
    have hwf' : Header.WellFormed rest :=
      ⟨hnd.2, fun e he => hcanon e (List.mem_cons_of_mem _ he),
        fun e he => hne e (List.mem_cons_of_mem _ he)⟩
    cases hv with
    | nil => exact absurd rfl (hne (hk, []) (List.mem_cons_self _ _))
    | cons v0 tl =>
      simp only [relayHeaders]
      obtain ⟨hp, hg⟩ := ih (relayValues (Header.Set h hk v0) hk (v0 :: tl)) hwf'
      refine ⟨hp, fun name => ?_⟩
      rw [hg name, get_relay_one, hck]
      by_cases hn : name = hk
      · subst hn
        have h1 : name ∉ GoMap.keys rest := hnd.1
        simp [GoMap.keys, GoMap.get] at h1 ⊢
        intro x hx; exact absurd hx (h1 x)
      · have hn' : ¬ hk = name := fun hh => hn hh.symm
        simp only [GoMap.keys, GoMap.get, hn, hn', List.map_cons, if_false]
        by_cases hm : name ∈ List.map Prod.fst rest
        · rw [if_pos hm, if_pos (List.mem_cons_of_mem _ hm)]
        · have hm' : name ∉ hk :: List.map Prod.fst rest := by
            simp only [List.mem_cons, not_or]
            exact ⟨hn, hm⟩
          rw [if_neg hm, if_neg hm']

/-- A key with no value at the head of the backend header map makes the read
of `hv[0]` panic before anything is relayed. -/
theorem relayHeaders_empty_values (h : Header) (hk : String) (rest : Header) :
    relayHeaders h ((hk, []) :: rest) = (h, true) := rfl

/-! ## Paths of `ServeHTTP` -/

theorem ServeHTTP_missing (env : World) (ph : ProxyHandler) (w : ResponseWriter) (r : Request)
    (hmiss : r.Header.Get "X-APP_KEY" = "") :
    ServeHTTP env ph w r =
      { w := ((w.WriteHeader 400).Write "X-APP_KEY header not provided").finish,
        inbound := r.Header, calls := [], panicked := false } := by
  simp [ServeHTTP, hmiss]

theorem ServeHTTP_unknown (env : World) (ph : ProxyHandler) (w : ResponseWriter) (r : Request)
    (hne : r.Header.Get "X-APP_KEY" ≠ "")
    (hkey : GoMap.get ph.keys (r.Header.Get "X-APP_KEY") = none) :
    ServeHTTP env ph w r =
      { w := ((w.WriteHeader 400).Write
          ("No application found for app key " ++ r.Header.Get "X-APP_KEY")).finish,
        inbound := r.Header, calls := [], panicked := false } := by
  simp [ServeHTTP, hne, hkey]

theorem ServeHTTP_build_error (env : World) (ph : ProxyHandler) (w : ResponseWriter)
    (r : Request) (appInfo : Client)
    (hne : r.Header.Get "X-APP_KEY" ≠ "")
    (hkey : GoMap.get ph.keys (r.Header.Get "X-APP_KEY") = some appInfo)
    (hbad : env.validRequest r.Method (appInfo.BasePath ++ "/" ++ targetPath r) = false) :
    ServeHTTP env ph w r =
      { w := ((w.WriteHeader 500).Write "cannot create proxy request").finish,
        inbound := r.Header,
        calls := [Call.newRequest r.Method (appInfo.BasePath ++ "/" ++ targetPath r) r.Body],
        panicked := false } := by
  simp [ServeHTTP, hne, hkey, NewRequest, hbad]

theorem ServeHTTP_dispatch_error (env : World) (ph : ProxyHandler) (w : ResponseWriter)
    (r : Request) (appInfo : Client)
    (hne : r.Header.Get "X-APP_KEY" ≠ "")
    (hkey : GoMap.get ph.keys (r.Header.Get "X-APP_KEY") = some appInfo)
    (hok : env.validRequest r.Method (appInfo.BasePath ++ "/" ++ targetPath r) = true)
    (hdo : env.upstream (outbound r appInfo) = none) :
    ServeHTTP env ph w r =
      { w := ((w.WriteHeader 500).Write "cannot retrieve proxy response").finish,
        inbound := Header.Set r.Header "X-APP_KEY" appInfo.RealKey,
        calls := [Call.newRequest r.Method (appInfo.BasePath ++ "/" ++ targetPath r) r.Body,
          Call.clientDo (outbound r appInfo) none],
        panicked := false } := by
  unfold outbound at hdo
  simp [ServeHTTP, hne, hkey, NewRequest, hok, hdo, outbound]

theorem ServeHTTP_dispatched (env : World) (ph : ProxyHandler) (w : ResponseWriter)
    (r : Request) (appInfo : Client) (response : Response)
    (hne : r.Header.Get "X-APP_KEY" ≠ "")
    (hkey : GoMap.get ph.keys (r.Header.Get "X-APP_KEY") = some appInfo)
    (hok : env.validRequest r.Method (appInfo.BasePath ++ "/" ++ targetPath r) = true)
    (hdo : env.upstream (outbound r appInfo) = some response) :
    ServeHTTP env ph w r =
      (if (relayHeaders w.header response.Header).2 then
        { w := { w with header := (relayHeaders w.header response.Header).1 },
          inbound := Header.Set r.Header "X-APP_KEY" appInfo.RealKey,
          calls := [Call.newRequest r.Method (appInfo.BasePath ++ "/" ++ targetPath r) r.Body,
            Call.clientDo (outbound r appInfo) (some response)],
          panicked := true }
      else
        { w := (ioCopy { w with header := (relayHeaders w.header response.Header).1 }
            response.Body).finish,
          inbound := Header.Set r.Header "X-APP_KEY" appInfo.RealKey,
          calls := [Call.newRequest r.Method (appInfo.BasePath ++ "/" ++ targetPath r) r.Body,
            Call.clientDo (outbound r appInfo) (some response)],
          panicked := false }) := by
  unfold outbound at hdo
  simp only [ServeHTTP, hne, hkey, NewRequest, hok, hdo, outbound, if_true, if_false]
  rcases hrel : relayHeaders w.header response.Header with ⟨h, b⟩
  cases b <;> simp

theorem ServeHTTP_clientDo_mem (env : World) (ph : ProxyHandler) (w : ResponseWriter)
    (r : Request) (request : ProxyRequest) (result : Option Response)
    (hmem : Call.clientDo request result ∈ (ServeHTTP env ph w r).calls) :
    ∃ appInfo, r.Header.Get "X-APP_KEY" ≠ "" ∧
      GoMap.get ph.keys (r.Header.Get "X-APP_KEY") = some appInfo ∧
      env.validRequest r.Method (appInfo.BasePath ++ "/" ++ targetPath r) = true ∧
      request = outbound r appInfo ∧ env.upstream (outbound r appInfo) = result := by
  by_cases hmiss : r.Header.Get "X-APP_KEY" = ""
  · rw [ServeHTTP_missing env ph w r hmiss] at hmem
    simp at hmem
  · cases hkey : GoMap.get ph.keys (r.Header.Get "X-APP_KEY") with
    | none =>
      rw [ServeHTTP_unknown env ph w r hmiss hkey] at hmem
      simp at hmem
    | some appInfo =>
      cases hok : env.validRequest r.Method (appInfo.BasePath ++ "/" ++ targetPath r) with
      | false =>
        rw [ServeHTTP_build_error env ph w r appInfo hmiss hkey hok] at hmem
        simp at hmem
      | true =>
        cases hdo : env.upstream (outbound r appInfo) with
        | none =>
          rw [ServeHTTP_dispatch_error env ph w r appInfo hmiss hkey hok hdo] at hmem
          simp at hmem
          exact ⟨appInfo, hmiss, rfl, hok, hmem.1, by rw [hdo]; exact hmem.2.symm⟩
        | some response =>
          rw [ServeHTTP_dispatched env ph w r appInfo response hmiss hkey hok hdo] at hmem
          have hmem2 : request = outbound r appInfo ∧ result = some response := by
            split at hmem <;> simpa using hmem
          exact ⟨appInfo, hmiss, rfl, hok, hmem2.1, by rw [hdo]; exact hmem2.2.symm⟩

theorem ioCopy_finish_fresh (h : Header) (body : String) :
    (ioCopy { ResponseWriter.fresh with header := h } body).finish
      = { header := h, status := some 200, sent := h, body := body } := by
  by_cases hb : body = ""
  · simp [ioCopy, hb, ResponseWriter.finish, ResponseWriter.WriteHeader, ResponseWriter.fresh]
  · simp [ioCopy, hb, ResponseWriter.finish, ResponseWriter.WriteHeader, ResponseWriter.Write,
      ResponseWriter.fresh]

theorem error_reply_fresh (code : Nat) (msg : String) :
    ((ResponseWriter.fresh.WriteHeader code).Write msg).finish
      = { header := [], status := some code, sent := [], body := msg } := by
  simp [ResponseWriter.finish, ResponseWriter.WriteHeader, ResponseWriter.Write,
    ResponseWriter.fresh]

theorem Header.Get_eq_empty_iff (h : Header) (key : String) :
    Header.Get h key = "" ↔
      GoMap.get h (CanonicalMIMEHeaderKey key) = none ∨
      GoMap.get h (CanonicalMIMEHeaderKey key) = some [] ∨
      ∃ rest, GoMap.get h (CanonicalMIMEHeaderKey key) = some ("" :: rest) := by
  unfold Header.Get
  cases hg : GoMap.get h (CanonicalMIMEHeaderKey key) with
  | none => simp
  | some vs =>
    cases vs with
    | nil => simp
    | cons v rest => simp

/-! ## The claims -/

/-- C1: when the inbound `X-APP_KEY` value is a key of the table, every request
handed to the upstream client carries the inbound headers with `X-APP_KEY`
replaced by the single value `RealKey` of the matching entry: the canonical
name holds exactly `[RealKey]`, `Get` returns `RealKey`, and every other
header name has the values it had inbound, in the same order.  Such a
request is handed over whenever the key is non-empty and the outbound
request can be constructed. -/
theorem outbound_headers_carry_real_key (env : World) (ph : ProxyHandler)
    (w : ResponseWriter) (r : Request) (appInfo : Client)
    (hkey : GoMap.get ph.keys (r.Header.Get "X-APP_KEY") = some appInfo) :
    (∀ request result, Call.clientDo request result ∈ (ServeHTTP env ph w r).calls →
      GoMap.get request.Header (CanonicalMIMEHeaderKey "X-APP_KEY") = some [appInfo.RealKey] ∧
      request.Header.Get "X-APP_KEY" = appInfo.RealKey ∧
      ∀ name, name ≠ CanonicalMIMEHeaderKey "X-APP_KEY" →
        GoMap.get request.Header name = GoMap.get r.Header name) ∧
    (r.Header.Get "X-APP_KEY" ≠ "" →
      env.validRequest r.Method (appInfo.BasePath ++ "/" ++ targetPath r) = true →
      ∃ request result, Call.clientDo request result ∈ (ServeHTTP env ph w r).calls) := by
  constructor
  · intro request result hmem
    obtain ⟨c, _, hc, _, hreq, _⟩ := ServeHTTP_clientDo_mem env ph w r request result hmem
    rw [hkey] at hc
    cases hc
    subst hreq
    exact ⟨Header.get_Set_same _ _ _, Header.Get_Set _ _ _,
      fun name hn => Header.get_Set_ne _ _ _ name hn⟩
  · intro hne hok
    refine ⟨outbound r appInfo, env.upstream (outbound r appInfo), ?_⟩
    cases hdo : env.upstream (outbound r appInfo) with
    | none =>
      rw [ServeHTTP_dispatch_error env ph w r appInfo hne hkey hok hdo]
      simp
    | some response =>
      rw [ServeHTTP_dispatched env ph w r appInfo response hne hkey hok hdo]
      split <;> simp

/-- Witness of C1 on the example request, whose caller sent two key values. -/
theorem outbound_headers_carry_real_key_witness :
    GoMap.get exampleHandler.keys (exampleRequest.Header.Get "X-APP_KEY")
      = some { BasePath := "http://backend:8081", RealKey := "secret" } ∧
    Call.clientDo (outbound exampleRequest { BasePath := "http://backend:8081", RealKey := "secret" })
      (some exampleResponse) ∈ (ServeHTTP worldUp exampleHandler ResponseWriter.fresh exampleRequest).calls ∧
    GoMap.get (outbound exampleRequest { BasePath := "http://backend:8081", RealKey := "secret" }).Header
      "X-App_key" = some ["secret"] ∧
    GoMap.get (outbound exampleRequest { BasePath := "http://backend:8081", RealKey := "secret" }).Header
      "Accept" = some ["text/html", "*/*"] := by
  have hmem : Call.clientDo
      (outbound exampleRequest { BasePath := "http://backend:8081", RealKey := "secret" })
      (some exampleResponse)
      ∈ (ServeHTTP worldUp exampleHandler ResponseWriter.fresh exampleRequest).calls := by decide
  have h := (outbound_headers_carry_real_key worldUp exampleHandler ResponseWriter.fresh
    exampleRequest { BasePath := "http://backend:8081", RealKey := "secret" } (by decide)).1
    _ _ hmem
  refine ⟨by decide, hmem, ?_, ?_⟩
  · rw [← canonical_app_key]; exact h.1
  · rw [h.2.2 "Accept" (by decide)]; decide

/-- C2: a request whose `X-APP_KEY` header is absent or empty, that is whose
`Get` is the empty string, is answered with status 400 and the body
`X-APP_KEY header not provided`, whatever the key table holds; no outbound
request is constructed or dispatched. -/
theorem missing_key_rejected (env : World) (ph : ProxyHandler) (r : Request)
    (hmiss : r.Header.Get "X-APP_KEY" = "") :
    (ServeHTTP env ph ResponseWriter.fresh r).w.status = some 400 ∧
    (ServeHTTP env ph ResponseWriter.fresh r).w.body = "X-APP_KEY header not provided" ∧
    (ServeHTTP env ph ResponseWriter.fresh r).calls = [] ∧
    (ServeHTTP env ph ResponseWriter.fresh r).panicked = false := by
  rw [ServeHTTP_missing env ph _ r hmiss, error_reply_fresh]
  exact ⟨rfl, rfl, rfl, rfl⟩

/-- Witness of C2: no key header at all, against a table with an entry for the
empty string. -/
theorem missing_key_rejected_witness :
    GoMap.get exampleHandler.keys "" = some { BasePath := "http://backend:8082", RealKey := "other" } ∧
    Header.Get [("Accept", ["*/*"])] "X-APP_KEY" = "" ∧
    (ServeHTTP worldUp exampleHandler ResponseWriter.fresh
      { exampleRequest with Header := [("Accept", ["*/*"])] }).w.status = some 400 ∧
    (ServeHTTP worldUp exampleHandler ResponseWriter.fresh
      { exampleRequest with Header := [("Accept", ["*/*"])] }).calls = [] :=
  ⟨by decide, by decide,
    (missing_key_rejected worldUp exampleHandler
      { exampleRequest with Header := [("Accept", ["*/*"])] } (by decide)).1,
    (missing_key_rejected worldUp exampleHandler
      { exampleRequest with Header := [("Accept", ["*/*"])] } (by decide)).2.2.1⟩

/-- C3: a request whose key is non-empty and is not a key of the table is
answered with status 400 and the body `No application found for app key `
followed by the key as sent; no outbound request is constructed or
dispatched. -/
theorem unknown_key_rejected (env : World) (ph : ProxyHandler) (r : Request)
    (hne : r.Header.Get "X-APP_KEY" ≠ "")
    (hnot : r.Header.Get "X-APP_KEY" ∉ GoMap.keys ph.keys) :
    (ServeHTTP env ph ResponseWriter.fresh r).w.status = some 400 ∧
    (ServeHTTP env ph ResponseWriter.fresh r).w.body
      = "No application found for app key " ++ r.Header.Get "X-APP_KEY" ∧
    (ServeHTTP env ph ResponseWriter.fresh r).calls = [] ∧
    (ServeHTTP env ph ResponseWriter.fresh r).panicked = false := by
  rw [ServeHTTP_unknown env ph _ r hne (GoMap.get_eq_none_of_not_mem _ _ hnot),
    error_reply_fresh]
  exact ⟨rfl, rfl, rfl, rfl⟩

/-- Witness of C3: the key `K1` differs from the table key `k1` in case only. -/
theorem unknown_key_rejected_witness :
    Header.Get [("X-App_key", ["K1"])] "X-APP_KEY" = "K1" ∧
    "K1" ∉ GoMap.keys exampleHandler.keys ∧
    (ServeHTTP worldUp exampleHandler ResponseWriter.fresh
      { exampleRequest with Header := [("X-App_key", ["K1"])] }).w.body
      = "No application found for app key K1" :=
  ⟨by decide, by decide,
    (unknown_key_rejected worldUp exampleHandler
      { exampleRequest with Header := [("X-App_key", ["K1"])] } (by decide) (by decide)).2.1⟩

/-- C4: for a request with a valid key (non-empty and in the table) whose entry
has base path `b`, `http.NewRequest` is called, once, with the inbound method,
the URL string `b ++ "/" ++ t` and the inbound body, where `t` is the path when
the raw query is empty and the path, `?` and the raw query otherwise; a
request handed to the upstream client has that URL string and body, and the
inbound method when that is not empty. -/
theorem outbound_request_built_from_inbound (env : World) (ph : ProxyHandler)
    (w : ResponseWriter) (r : Request) (appInfo : Client)
    (hne : r.Header.Get "X-APP_KEY" ≠ "")
    (hkey : GoMap.get ph.keys (r.Header.Get "X-APP_KEY") = some appInfo) :
    (∃ rest, (ServeHTTP env ph w r).calls
        = Call.newRequest r.Method
            (appInfo.BasePath ++ "/" ++
              (if r.URL.RawQuery = "" then r.URL.Path else r.URL.Path ++ "?" ++ r.URL.RawQuery))
            r.Body :: rest ∧
      ∀ m u b, Call.newRequest m u b ∉ rest) ∧
    (∀ request result, Call.clientDo request result ∈ (ServeHTTP env ph w r).calls →
      request.URL = appInfo.BasePath ++ "/" ++
          (if r.URL.RawQuery = "" then r.URL.Path else r.URL.Path ++ "?" ++ r.URL.RawQuery) ∧
      request.Body = r.Body ∧ (r.Method ≠ "" → request.Method = r.Method)) := by
  constructor
  · cases hok : env.validRequest r.Method (appInfo.BasePath ++ "/" ++ targetPath r) with
    | false =>
      rw [ServeHTTP_build_error env ph w r appInfo hne hkey hok]
      exact ⟨[], rfl, by simp⟩
    | true =>
      cases hdo : env.upstream (outbound r appInfo) with
      | none =>
        rw [ServeHTTP_dispatch_error env ph w r appInfo hne hkey hok hdo]
        exact ⟨_, rfl, by simp⟩
      | some response =>
        rw [ServeHTTP_dispatched env ph w r appInfo response hne hkey hok hdo]
        split
        · exact ⟨_, rfl, by simp⟩
        · exact ⟨_, rfl, by simp⟩
  · intro request result hmem
    obtain ⟨c, _, hc, _, hreq, _⟩ := ServeHTTP_clientDo_mem env ph w r request result hmem
    rw [hkey] at hc
    cases hc
    subst hreq
    refine ⟨rfl, rfl, fun hm => ?_⟩
    simp [outbound, hm]

/-- Witness of C4: path `/v1/items`, query `id=5&x=y`, base path
`http://backend:8081`. -/
theorem outbound_request_built_from_inbound_witness :
    exampleRequest.Header.Get "X-APP_KEY" ≠ "" ∧
    GoMap.get exampleHandler.keys (exampleRequest.Header.Get "X-APP_KEY")
      = some { BasePath := "http://backend:8081", RealKey := "secret" } ∧
    (ServeHTTP worldUp exampleHandler ResponseWriter.fresh exampleRequest).calls.head?
      = some (Call.newRequest "POST" "http://backend:8081//v1/items?id=5&x=y" "payload") := by
  obtain ⟨rest, hcalls, _⟩ := (outbound_request_built_from_inbound worldUp exampleHandler
    ResponseWriter.fresh exampleRequest { BasePath := "http://backend:8081", RealKey := "secret" }
    (by decide) (by decide)).1
  refine ⟨by decide, by decide, ?_⟩
  rw [hcalls]
  rfl

/-- After a successful dispatch whose relay does not panic the handler has
written no status of its own: the caller sees the default 200. -/
theorem status_after_dispatch (env : World) (ph : ProxyHandler) (r : Request)
    (request : ProxyRequest) (response : Response)
    (hdo : Call.clientDo request (some response)
      ∈ (ServeHTTP env ph ResponseWriter.fresh r).calls)
    (hpanic : (ServeHTTP env ph ResponseWriter.fresh r).panicked = false) :
    (ServeHTTP env ph ResponseWriter.fresh r).w.status = some 200 := by
  obtain ⟨c, hne, hkey, hok, _, hup⟩ :=
    ServeHTTP_clientDo_mem env ph _ r request (some response) hdo
  rw [ServeHTTP_dispatched env ph _ r c response hne hkey hok hup] at hpanic ⊢
  split at hpanic
  · simp at hpanic
  · rename_i hrel
    rw [if_neg hrel]
    show (ioCopy { ResponseWriter.fresh with header := _ } response.Body).finish.status = _
    rw [ioCopy_finish_fresh]

/-- C5, on the code: the backend answers 404 and the caller receives 200. -/
theorem backend_status_not_relayed :
    Call.clientDo (outbound exampleRequest { BasePath := "http://backend:8081", RealKey := "secret" })
      (some exampleResponse)
      ∈ (ServeHTTP worldUp exampleHandler ResponseWriter.fresh exampleRequest).calls ∧
    exampleResponse.StatusCode = 404 ∧
    (ServeHTTP worldUp exampleHandler ResponseWriter.fresh exampleRequest).w.status = some 200 := by
  decide

/-- C6: after a successful dispatch whose backend header map is well formed
(distinct canonical keys, at least one value each), starting from a new
response writer, the relay loop does not panic and the caller-facing
response carries every backend header with exactly its values in order. -/
theorem backend_headers_relayed (env : World) (ph : ProxyHandler) (r : Request)
    (request : ProxyRequest) (response : Response)
    (hdo : Call.clientDo request (some response)
      ∈ (ServeHTTP env ph ResponseWriter.fresh r).calls)
    (hwf : Header.WellFormed response.Header) :
    (ServeHTTP env ph ResponseWriter.fresh r).panicked = false ∧
    ∀ hk hv, (hk, hv) ∈ response.Header →
      GoMap.get (ServeHTTP env ph ResponseWriter.fresh r).w.sent hk = some hv := by
  obtain ⟨c, hne, hkey, hok, _, hup⟩ :=
    ServeHTTP_clientDo_mem env ph _ r request (some response) hdo
  obtain ⟨hp, hg⟩ := relayHeaders_spec response.Header ResponseWriter.fresh.header hwf
  rw [ServeHTTP_dispatched env ph _ r c response hne hkey hok hup, hp]
  simp only [Bool.false_eq_true, if_false]
  refine ⟨trivial, fun hk hv hmem => ?_⟩
  show GoMap.get (ioCopy { ResponseWriter.fresh with header := _ } response.Body).finish.sent hk = _
  rw [ioCopy_finish_fresh]
  show GoMap.get (relayHeaders ResponseWriter.fresh.header response.Header).1 hk = _
  have hin : hk ∈ GoMap.keys response.Header := List.mem_map_of_mem Prod.fst hmem
  rw [hg hk, if_pos hin]
  exact GoMap.get_of_mem _ _ _ hwf.1 hmem

/-- Witness of C6: `Set-Cookie: a=1` and `Set-Cookie: b=2` are both relayed, in
that order. -/
theorem backend_headers_relayed_witness :
    Header.WellFormed exampleResponse.Header ∧
    (ServeHTTP worldUp exampleHandler ResponseWriter.fresh exampleRequest).panicked = false ∧
    GoMap.get (ServeHTTP worldUp exampleHandler ResponseWriter.fresh exampleRequest).w.sent
      "Set-Cookie" = some ["a=1", "b=2"] :=
  ⟨by decide,
    (backend_headers_relayed worldUp exampleHandler exampleRequest
      (outbound exampleRequest { BasePath := "http://backend:8081", RealKey := "secret" })
      exampleResponse (by decide) (by decide)).1,
    (backend_headers_relayed worldUp exampleHandler exampleRequest
      (outbound exampleRequest { BasePath := "http://backend:8081", RealKey := "secret" })
      exampleResponse (by decide) (by decide)).2 "Set-Cookie" ["a=1", "b=2"] (by decide)⟩

/-- C7: for a request whose key is valid, a failed construction of the outbound
request is answered with status 500 and the body `cannot create proxy request`
without any upstream call, and a failed dispatch is answered with status 500
and the body `cannot retrieve proxy response` after exactly one upstream call;
in both cases the caller receives no header and no body byte beyond the error
text. -/
theorem upstream_failures_answered_500 (env : World) (ph : ProxyHandler) (r : Request)
    (appInfo : Client)
    (hne : r.Header.Get "X-APP_KEY" ≠ "")
    (hkey : GoMap.get ph.keys (r.Header.Get "X-APP_KEY") = some appInfo) :
    (env.validRequest r.Method (appInfo.BasePath ++ "/" ++ targetPath r) = false →
      (ServeHTTP env ph ResponseWriter.fresh r).w.status = some 500 ∧
      (ServeHTTP env ph ResponseWriter.fresh r).w.body = "cannot create proxy request" ∧
      (ServeHTTP env ph ResponseWriter.fresh r).w.sent = [] ∧
      (ServeHTTP env ph ResponseWriter.fresh r).calls.filter Call.isClientDo = []) ∧
    (env.validRequest r.Method (appInfo.BasePath ++ "/" ++ targetPath r) = true →
      env.upstream (outbound r appInfo) = none →
      (ServeHTTP env ph ResponseWriter.fresh r).w.status = some 500 ∧
      (ServeHTTP env ph ResponseWriter.fresh r).w.body = "cannot retrieve proxy response" ∧
      (ServeHTTP env ph ResponseWriter.fresh r).w.sent = [] ∧
      (ServeHTTP env ph ResponseWriter.fresh r).calls.filter Call.isClientDo
        = [Call.clientDo (outbound r appInfo) none]) := by
  constructor
  · intro hbad
    rw [ServeHTTP_build_error env ph _ r appInfo hne hkey hbad, error_reply_fresh]
    exact ⟨rfl, rfl, rfl, rfl⟩
  · intro hok hdo
    rw [ServeHTTP_dispatch_error env ph _ r appInfo hne hkey hok hdo, error_reply_fresh]
    exact ⟨rfl, rfl, rfl, rfl⟩

/-- Witness of C7: the example request against a world that rejects the
construction and against a world whose backend is unreachable. -/
theorem upstream_failures_answered_500_witness :
    exampleRequest.Header.Get "X-APP_KEY" ≠ "" ∧
    GoMap.get exampleHandler.keys (exampleRequest.Header.Get "X-APP_KEY")
      = some { BasePath := "http://backend:8081", RealKey := "secret" } ∧
    (ServeHTTP worldNoBuild exampleHandler ResponseWriter.fresh exampleRequest).w.body
      = "cannot create proxy request" ∧
    (ServeHTTP worldDown exampleHandler ResponseWriter.fresh exampleRequest).w.body
      = "cannot retrieve proxy response" :=
  ⟨by decide, by decide,
    ((upstream_failures_answered_500 worldNoBuild exampleHandler exampleRequest
      { BasePath := "http://backend:8081", RealKey := "secret" } (by decide) (by decide)).1
      (by decide)).2.1,
    ((upstream_failures_answered_500 worldDown exampleHandler exampleRequest
      { BasePath := "http://backend:8081", RealKey := "secret" } (by decide) (by decide)).2
      (by decide) (by decide)).2.1⟩

/-- C8 as stated fails: on the example request, whose key is valid, the inbound
header map after `ServeHTTP` differs from the one received, and its
`X-APP_KEY` is the real key `secret`, not the key `k1` the caller sent. -/
theorem inbound_headers_not_preserved :
    exampleRequest.Header.Get "X-APP_KEY" = "k1" ∧
    GoMap.get exampleHandler.keys "k1"
      = some { BasePath := "http://backend:8081", RealKey := "secret" } ∧
    (ServeHTTP worldUp exampleHandler ResponseWriter.fresh exampleRequest).inbound
      ≠ exampleRequest.Header ∧
    Header.Get (ServeHTTP worldUp exampleHandler ResponseWriter.fresh exampleRequest).inbound
      "X-APP_KEY" = "secret" := by
  decide

/-- C8, amended: for a request with a valid key whose outbound request is
constructed, the key substitution is made on the inbound request's own header
map, which the outbound request shares: on return the inbound `X-APP_KEY`
holds exactly the real key, every other inbound header name keeps its values,
and a request handed to the upstream client has that same header map. -/
theorem inbound_headers_share_substitution (env : World) (ph : ProxyHandler)
    (w : ResponseWriter) (r : Request) (appInfo : Client)
    (hne : r.Header.Get "X-APP_KEY" ≠ "")
    (hkey : GoMap.get ph.keys (r.Header.Get "X-APP_KEY") = some appInfo)
    (hok : env.validRequest r.Method (appInfo.BasePath ++ "/" ++ targetPath r) = true) :
    GoMap.get (ServeHTTP env ph w r).inbound (CanonicalMIMEHeaderKey "X-APP_KEY")
      = some [appInfo.RealKey] ∧
    Header.Get (ServeHTTP env ph w r).inbound "X-APP_KEY" = appInfo.RealKey ∧
    (∀ name, name ≠ CanonicalMIMEHeaderKey "X-APP_KEY" →
      GoMap.get (ServeHTTP env ph w r).inbound name = GoMap.get r.Header name) ∧
    (∀ request result, Call.clientDo request result ∈ (ServeHTTP env ph w r).calls →
      request.Header = (ServeHTTP env ph w r).inbound) := by
  have hin : (ServeHTTP env ph w r).inbound
      = Header.Set r.Header "X-APP_KEY" appInfo.RealKey := by
    cases hdo : env.upstream (outbound r appInfo) with
    | none => rw [ServeHTTP_dispatch_error env ph w r appInfo hne hkey hok hdo]
    | some response =>
      rw [ServeHTTP_dispatched env ph w r appInfo response hne hkey hok hdo]
      split <;> rfl
  refine ⟨?_, ?_, ?_, ?_⟩
  · rw [hin]; exact Header.get_Set_same _ _ _
  · rw [hin]; exact Header.Get_Set _ _ _
  · intro name hn
    rw [hin]; exact Header.get_Set_ne _ _ _ name hn
  · intro request result hmem
    obtain ⟨c, _, hc, _, hreq, _⟩ := ServeHTTP_clientDo_mem env ph w r request result hmem
    rw [hkey] at hc
    cases hc
    rw [hin, hreq]
    rfl

/-- Witness of the amended C8 on the example request. -/
theorem inbound_headers_share_substitution_witness :
    exampleRequest.Header.Get "X-APP_KEY" ≠ "" ∧
    GoMap.get exampleHandler.keys (exampleRequest.Header.Get "X-APP_KEY")
      = some { BasePath := "http://backend:8081", RealKey := "secret" } ∧
    Header.Get (ServeHTTP worldDown exampleHandler ResponseWriter.fresh exampleRequest).inbound
      "X-APP_KEY" = "secret" :=
  ⟨by decide, by decide,
    (inbound_headers_share_substitution worldDown exampleHandler ResponseWriter.fresh
      exampleRequest { BasePath := "http://backend:8081", RealKey := "secret" }
      (by decide) (by decide) (by decide)).2.1⟩

/-- The handler never calls `Close` on a backend response body. -/
theorem ServeHTTP_never_closes (env : World) (ph : ProxyHandler) (w : ResponseWriter)
    (r : Request) : Call.bodyClose ∉ (ServeHTTP env ph w r).calls := by
  by_cases hmiss : r.Header.Get "X-APP_KEY" = ""
  · rw [ServeHTTP_missing env ph w r hmiss]; simp
  · cases hkey : GoMap.get ph.keys (r.Header.Get "X-APP_KEY") with
    | none => rw [ServeHTTP_unknown env ph w r hmiss hkey]; simp
    | some appInfo =>
      cases hok : env.validRequest r.Method (appInfo.BasePath ++ "/" ++ targetPath r) with
      | false => rw [ServeHTTP_build_error env ph w r appInfo hmiss hkey hok]; simp
      | true =>
        cases hdo : env.upstream (outbound r appInfo) with
        | none => rw [ServeHTTP_dispatch_error env ph w r appInfo hmiss hkey hok hdo]; simp
        | some response =>
          rw [ServeHTTP_dispatched env ph w r appInfo response hmiss hkey hok hdo]
          split <;> simp

/-- C9, on the code: the example request is dispatched, the backend answers and
its body is relayed in full, and the handler returns without a `Close` of the
backend body among its calls. -/
theorem backend_body_left_open :
    Call.clientDo (outbound exampleRequest { BasePath := "http://backend:8081", RealKey := "secret" })
      (some exampleResponse)
      ∈ (ServeHTTP worldUp exampleHandler ResponseWriter.fresh exampleRequest).calls ∧
    (ServeHTTP worldUp exampleHandler ResponseWriter.fresh exampleRequest).w.body
      = exampleResponse.Body ∧
    (ServeHTTP worldUp exampleHandler ResponseWriter.fresh exampleRequest).panicked = false ∧
    Call.bodyClose ∉ (ServeHTTP worldUp exampleHandler ResponseWriter.fresh exampleRequest).calls := by
  decide

/-- The error of `loadMap` is the error of `os.Open` and nothing else. -/
theorem loadMap_error_iff (host : Host) (file : String) (dest : GoMap Client) (err : String) :
    (loadMap host file dest).1 = some err ↔ host.openFile file = Except.error err := by
  unfold loadMap
  cases h : host.openFile file with
  | error e => simp
  | ok content => simp

/-- C10, on the code: `keys.json` opens but cannot be decoded; `loadMap`
returns a nil error and `main` goes on to serve with the empty table. -/
theorem undecodable_key_file_accepted :
    hostUndecodable.openFile "keys.json" = Except.ok "base_path=http://backend:8081" ∧
    (hostUndecodable.decode "base_path=http://backend:8081" []).2 ≠ none ∧
    (loadMap hostUndecodable "keys.json" []).1 = none ∧
    main hostUndecodable ["oapiproxy"] = MainResult.serving ":9080" { keys := [] } :=
  ⟨rfl, by decide, by decide, by decide⟩

end OapiProxy
